import Mathlib

/-!
Shallow embedding of the go-kafkify transactional-outbox core:
the outbox writer (`insertOutboxEvent` and the handlers that call it),
the outbox relay (`processOutboxEvents`, `publishToKafka`,
`markEventProcessed`), and the idempotent consumer
(`startKafkaConsumer` dispatch step and `processKafkaMessage`).
Timestamps are modelled as `Nat`, serialized payloads as `String`,
and each fallible database/broker call is driven by an explicit
fault flag so that every error path of the Go code is a reachable
branch of the Lean function.
-/

namespace Kafkify

/-- A row of the `outbox_events` table (`OutboxEvent` struct in the source;
`processed_at` is the nullable published timestamp). -/
structure OutboxRow where
  id : String
  aggregateId : String
  eventType : String
  payload : String
  createdAt : Nat
  processedAt : Option Nat
deriving Repr, DecidableEq

/-- A row of the `tasks` table of the gRPC service (`Task` struct). -/
structure TaskRow where
  id : String
  resourceId : String
  action : String
  status : String
  result : String
  createdAt : Nat
  updatedAt : Nat
deriving Repr, DecidableEq

/-- A row of the `resources` table of the REST service (`Resource` struct). -/
structure ResourceRow where
  id : String
  name : String
  description : String
  status : String
  createdAt : Nat
  updatedAt : Nat
deriving Repr, DecidableEq

/-- Durable state of the REST service database (`restdb`): the
`resources` table and its `outbox_events` table. -/
structure RestDB where
  resources : List ResourceRow
  outbox : List OutboxRow
deriving Repr, DecidableEq

/-- Durable state of the gRPC service database (`grpcdb`): the
`tasks` table and its `outbox_events` table. -/
structure GrpcDB where
  tasks : List TaskRow
  outbox : List OutboxRow
deriving Repr, DecidableEq

/-- Result of `json.Unmarshal(msg.Value, &payload)` into a
`map[string]interface\x7b\x7d`: either the bytes fail to parse as a JSON
object (`malformed`) or they yield a string-keyed map whose values are
either JSON strings or some other JSON value (`other`), which is all the
consumer inspects. -/
inductive JsonVal where
  | str (s : String)
  | other
deriving Repr, DecidableEq

/-- The raw value bytes of a Kafka message, abstracted by how
`json.Unmarshal` treats them. -/
inductive MsgValue where
  | malformed
  | obj (fields : List (String × JsonVal))
deriving Repr, DecidableEq

/-- A fetched Kafka message (`kafka.Message` fields the consumer reads). -/
structure KMessage where
  topic : String
  key : String
  value : MsgValue
  offset : Int
  partition : Nat
deriving Repr, DecidableEq

/-- The type assertion `payload["id"].(string)`: the `id` field of an
unmarshalled object, when present and a JSON string. -/
def extractResourceID : MsgValue → Option String
  | .malformed => none
  | .obj fields =>
    match fields.lookup "id" with
    | some (.str s) => some s
    | _ => none

/-- `insertOutboxEvent(ctx, tx, aggregateID, eventType, payload)`.
It runs exactly one INSERT on the caller's transaction view of
`outbox_events` and owns no transaction of its own: its whole effect is
either an error (the marshal or the INSERT failed, modelled by the
`fail` flag) or the caller's view with one new pending row appended.
The fresh `uuid.New().String()` is the `eid` parameter and the marshal
result is the `payload` parameter. -/
def insertOutboxEvent (fail : Bool) (outbox : List OutboxRow)
    (eid aggregateID eventType payload : String) (now : Nat) :
    Except Unit (List OutboxRow) :=
  if fail then .error ()
  else .ok (outbox ++ [⟨eid, aggregateID, eventType, payload, now, none⟩])

/-- The `switch msg.Topic` of `processKafkaMessage` choosing the task action. -/
def actionForTopic : String → String
  | "resource.created" => "process_new_resource"
  | "resource.updated" => "reprocess_resource"
  | "resource.deleted" => "cleanup_resource"
  | _ => "unknown"

/-- `taskID := fmt.Sprintf("auto-%s", resourceID)`: the consumer-side task
identity derived from the resource id alone. -/
def deriveTaskID (resourceID : String) : String :=
  "auto-" ++ resourceID

/-- The first statement of the consumer transaction:
`INSERT INTO tasks ... ON CONFLICT (id) DO UPDATE SET action = EXCLUDED.action,
status = \x27processing\x27, updated_at = EXCLUDED.updated_at`. -/
def upsertTask (tasks : List TaskRow) (t : TaskRow) : List TaskRow :=
  if tasks.any (fun r => r.id == t.id) then
    tasks.map (fun r =>
      if r.id = t.id then
        { r with action := t.action, status := "processing", updatedAt := t.updatedAt }
      else r)
  else tasks ++ [t]

/-- `UPDATE tasks SET status = $1, result = $2, updated_at = $3 WHERE id = $4`. -/
def updateTaskStatus (tasks : List TaskRow) (status result : String) (now : Nat)
    (taskID : String) : List TaskRow :=
  tasks.map (fun r =>
    if r.id = taskID then { r with status := status, result := result, updatedAt := now }
    else r)

/-- `json.Marshal(taskData)` for the `map[string]string` built at the end of
`processKafkaMessage`; Go marshals map keys in sorted order. -/
def taskCompletedPayload (taskID resourceID action status : String) : String :=
  "\x7b\"action\":\"" ++ action ++ "\",\"resource_id\":\"" ++ resourceID ++
    "\",\"status\":\"" ++ status ++ "\",\"task_id\":\"" ++ taskID ++ "\"\x7d"

/-- Which fallible steps of the consumer transaction fail, one flag per
database call in `processKafkaMessage`. -/
structure PkmFaults where
  beginFails : Bool
  insertTaskFails : Bool
  updateTaskFails : Bool
  outboxFails : Bool
  commitFails : Bool
deriving Repr, DecidableEq

/-- All database calls succeed. -/
def noPkmFaults : PkmFaults := ⟨false, false, false, false, false⟩

/-- The distinct error returns of `processKafkaMessage`, in source order. -/
inductive PkmErr where
  | unmarshal
  | missingID
  | beginTx
  | insertTask
  | updateTask
  | outboxInsert
  | commitTx
deriving Repr, DecidableEq

/-- `processKafkaMessage(ctx, msg)`: unmarshal the payload, extract the
resource id, derive the action and task id, then in one transaction
(`BeginTx` ... `defer tx.Rollback()` ... `tx.Commit()`): upsert the task as
`processing`, update it to `completed`, and insert a `task.completed`
outbox row via `insertOutboxEvent`. `t1` is the `now` used for the insert,
`t2` the fresh `time.Now()` of the completion update, `tOut` the outbox
row timestamp, `eid` the fresh outbox uuid. Every error return yields
`.error e` and, because `tx.Commit` was not reached, the durable database
is the caller's unchanged `db`. -/
def processKafkaMessage (db : GrpcDB) (msg : KMessage) (t1 t2 tOut : Nat)
    (eid : String) (f : PkmFaults) : Except PkmErr GrpcDB :=
  match msg.value with
  | .malformed => .error .unmarshal
  | .obj fields =>
    match fields.lookup "id" with
    | some (.str resourceID) =>
      let action := actionForTopic msg.topic
      let taskID := deriveTaskID resourceID
      if f.beginFails then .error .beginTx
      else if f.insertTaskFails then .error .insertTask
      else
        let procResult := "Processing " ++ msg.topic ++ " event for resource " ++ resourceID
        let tasks1 := upsertTask db.tasks
          ⟨taskID, resourceID, action, "processing", procResult, t1, t1⟩
        if f.updateTaskFails then .error .updateTask
        else
          let completedResult := "Completed " ++ action ++ " for resource " ++ resourceID
          let tasks2 := updateTaskStatus tasks1 "completed" completedResult t2 taskID
          match insertOutboxEvent f.outboxFails db.outbox eid taskID "task.completed"
              (taskCompletedPayload taskID resourceID action "completed") tOut with
          | .error _ => .error .outboxInsert
          | .ok outbox2 =>
            if f.commitFails then .error .commitTx
            else .ok ⟨tasks2, outbox2⟩
    | _ => .error .missingID

/-- What `reader.FetchMessage` produced in one iteration of the
`startKafkaConsumer` loop. -/
inductive FetchOutcome where
  | canceled
  | fetchFailed
  | fetched (msg : KMessage)
deriving Repr, DecidableEq

/-- What the dispatcher iteration did with the offset. -/
inductive IterAction where
  | stop
  | fetchRetry
  | noCommit
  | committed
deriving Repr, DecidableEq

/-- One iteration of the `startKafkaConsumer` dispatch loop: on fetch error
log and continue; on a fetched message run `processKafkaMessage` and call
`reader.CommitMessages` exactly when the handler returned nil; on handler
error only log, leaving the offset uncommitted. -/
def consumerStep (db : GrpcDB) (fo : FetchOutcome) (t1 t2 tOut : Nat)
    (eid : String) (f : PkmFaults) : GrpcDB × IterAction :=
  match fo with
  | .canceled => (db, .stop)
  | .fetchFailed => (db, .fetchRetry)
  | .fetched msg =>
    match processKafkaMessage db msg t1 t2 tOut eid f with
    | .error _ => (db, .noCommit)
    | .ok db2 => (db2, .committed)

/-- `n` fault-free deliveries of the same message to `processKafkaMessage`,
with per-delivery timestamps `ts` and outbox uuids `eids`. -/
def deliverN (msg : KMessage) (ts : Nat → Nat × Nat × Nat) (eids : Nat → String) :
    Nat → GrpcDB → GrpcDB
  | 0, db => db
  | n + 1, db =>
    match processKafkaMessage db msg (ts n).1 (ts n).2.1 (ts n).2.2 (eids n) noPkmFaults with
    | .ok db2 => deliverN msg ts eids n db2
    | .error _ => db

/-- `ORDER BY created_at ASC`. -/
def byCreatedAt (a b : OutboxRow) : Prop := a.createdAt ≤ b.createdAt

instance : DecidableRel byCreatedAt := fun a b => Nat.decLe a.createdAt b.createdAt

instance : IsTotal OutboxRow byCreatedAt := ⟨fun a b => Nat.le_total a.createdAt b.createdAt⟩

instance : IsTrans OutboxRow byCreatedAt := ⟨fun _ _ _ => Nat.le_trans⟩

/-- The relay poll query: `SELECT ... FROM outbox_events WHERE processed_at
IS NULL ORDER BY created_at ASC LIMIT 100`. -/
def selectPendingBatch (outbox : List OutboxRow) : List OutboxRow :=
  (List.insertionSort byCreatedAt (outbox.filter (fun r => r.processedAt.isNone))).take 100

/-- A message as handed to `writer.WriteMessages`. -/
structure KafkaMsg where
  topic : String
  key : String
  value : String
  headers : List (String × String)
deriving Repr, DecidableEq

/-- The `kafka.Message` built by `publishToKafka`: topic is the event type
(writer topic selector), key the aggregate id, value the payload bytes,
headers exactly `event_id` and `event_type`. -/
def publishToKafka (e : OutboxRow) : KafkaMsg :=
  ⟨e.eventType, e.aggregateId, e.payload,
    [("event_id", e.id), ("event_type", e.eventType)]⟩

/-- `markEventProcessed(ctx, eventID)`:
`UPDATE outbox_events SET processed_at = $1 WHERE id = $2`. -/
def markEventProcessed (outbox : List OutboxRow) (now : Nat) (eventID : String) :
    List OutboxRow :=
  outbox.map (fun r => if r.id = eventID then { r with processedAt := some now } else r)

/-- Which broker writes and which mark updates fail in one relay cycle,
keyed by event id. -/
structure RelayFaults where
  publishFails : String → Bool
  markFails : String → Bool

/-- No broker or database failure in the cycle. -/
def noRelayFaults : RelayFaults := ⟨fun _ => false, fun _ => false⟩

/-- The `for _, event := range events` loop of `processOutboxEvents`: a
failed `publishToKafka` is logged and the loop continues with the next
event without marking; after a successful publish, `markEventProcessed`
runs (its own failure is only logged). Returns the outbox table after the
loop and the list of messages the broker acknowledged. -/
def processBatch (faults : RelayFaults) (now : Nat) :
    List OutboxRow → List OutboxRow → List OutboxRow × List KafkaMsg
  | outbox, [] => (outbox, [])
  | outbox, e :: rest =>
    if faults.publishFails e.id then
      processBatch faults now outbox rest
    else
      let outbox2 := if faults.markFails e.id then outbox
        else markEventProcessed outbox now e.id
      let step := processBatch faults now outbox2 rest
      (step.1, publishToKafka e :: step.2)

/-- One relay poll cycle (`processOutboxEvents`): select the pending batch,
then publish-and-mark each selected event. The query-error return of the
source leaves the table unchanged and publishes nothing, so cycles that
run are the interesting case modelled here. -/
def processOutboxEvents (faults : RelayFaults) (now : Nat)
    (outbox : List OutboxRow) : List OutboxRow × List KafkaMsg :=
  processBatch faults now outbox (selectPendingBatch outbox)

/-- Which fallible steps of a business-mutation transaction fail:
`db.BeginTx`, the business `ExecContext`, the outbox insert, `tx.Commit`. -/
structure TxFaults where
  beginFails : Bool
  execFails : Bool
  outboxFails : Bool
  commitFails : Bool
deriving Repr, DecidableEq

/-- All transaction steps succeed. -/
def noTxFaults : TxFaults := ⟨false, false, false, false⟩

/-- The error responses a handler can produce (HTTP 400/500/404 in the
REST handlers, a non-nil error in the gRPC method). -/
inductive HandlerErr where
  | badRequest
  | internal
  | notFound
deriving Repr, DecidableEq

/-- `json.Marshal` of a `Resource` struct, fields in declaration order. -/
def marshalResource (r : ResourceRow) : String :=
  "\x7b\"id\":\"" ++ r.id ++ "\",\"name\":\"" ++ r.name ++
    "\",\"description\":\"" ++ r.description ++ "\",\"status\":\"" ++ r.status ++
    "\",\"created_at\":" ++ toString r.createdAt ++
    ",\"updated_at\":" ++ toString r.updatedAt ++ "\x7d"

/-- `json.Marshal` of a `Task` struct, fields in declaration order. -/
def marshalTask (t : TaskRow) : String :=
  "\x7b\"id\":\"" ++ t.id ++ "\",\"resource_id\":\"" ++ t.resourceId ++
    "\",\"action\":\"" ++ t.action ++ "\",\"status\":\"" ++ t.status ++
    "\",\"result\":\"" ++ t.result ++ "\",\"created_at\":" ++ toString t.createdAt ++
    ",\"updated_at\":" ++ toString t.updatedAt ++ "\x7d"

/-- `json.Marshal` of the `map[string]string\x7b"id": id, "status": "deleted"\x7d`
payload of the delete handler (map keys marshalled sorted). -/
def deletedPayload (id : String) : String :=
  "\x7b\"id\":\"" ++ id ++ "\",\"status\":\"deleted\"\x7d"

/-- `createResourceHandler`: decode the body (`none` models a decode
failure), override id/status/timestamps, then in one transaction insert
the resource row and its `resource.created` outbox row via
`insertOutboxEvent`, committing both together. `newID` is the fresh
resource uuid, `eid` the fresh outbox uuid, `now` the handler timestamp
and `tOut` the outbox-row timestamp. -/
def createResourceHandler (db : RestDB) (f : TxFaults)
    (body : Option (String × String)) (newID eid : String) (now tOut : Nat) :
    Except HandlerErr RestDB :=
  match body with
  | none => .error .badRequest
  | some (name, desc) =>
    let res : ResourceRow := ⟨newID, name, desc, "active", now, now⟩
    if f.beginFails then .error .internal
    else if f.execFails then .error .internal
    else
      match insertOutboxEvent f.outboxFails db.outbox eid res.id "resource.created"
          (marshalResource res) tOut with
      | .error _ => .error .internal
      | .ok ob2 =>
        if f.commitFails then .error .internal
        else .ok ⟨db.resources ++ [res], ob2⟩

/-- `updateResourceHandler`: decode the body, run
`UPDATE resources SET ... WHERE id = $5`, return 404 when no row was
affected, otherwise insert the `resource.updated` outbox row in the same
transaction and commit both together. The marshalled payload is the
decoded struct with `ID`/`UpdatedAt` overridden (its `CreatedAt` stays
the zero value). -/
def updateResourceHandler (db : RestDB) (f : TxFaults) (id : String)
    (body : Option (String × String × String)) (eid : String) (now tOut : Nat) :
    Except HandlerErr RestDB :=
  match body with
  | none => .error .badRequest
  | some (name, desc, status) =>
    if f.beginFails then .error .internal
    else if f.execFails then .error .internal
    else if ∃ r ∈ db.resources, r.id = id then
      let resources2 := db.resources.map (fun r =>
        if r.id = id then
          { r with name := name, description := desc, status := status, updatedAt := now }
        else r)
      let upd : ResourceRow := ⟨id, name, desc, status, 0, now⟩
      match insertOutboxEvent f.outboxFails db.outbox eid id "resource.updated"
          (marshalResource upd) tOut with
      | .error _ => .error .internal
      | .ok ob2 =>
        if f.commitFails then .error .internal
        else .ok ⟨resources2, ob2⟩
    else .error .notFound

/-- `deleteResourceHandler`: run `DELETE FROM resources WHERE id = $1`,
return 404 when no row was affected, otherwise insert the
`resource.deleted` outbox row in the same transaction and commit both
together. -/
def deleteResourceHandler (db : RestDB) (f : TxFaults) (id eid : String)
    (tOut : Nat) : Except HandlerErr RestDB :=
  if f.beginFails then .error .internal
  else if f.execFails then .error .internal
  else if ∃ r ∈ db.resources, r.id = id then
    let resources2 := db.resources.filter (fun r => r.id != id)
    match insertOutboxEvent f.outboxFails db.outbox eid id "resource.deleted"
        (deletedPayload id) tOut with
    | .error _ => .error .internal
    | .ok ob2 =>
      if f.commitFails then .error .internal
      else .ok ⟨resources2, ob2⟩
  else .error .notFound

/-- The gRPC `ProcessTask` method: build a pending task with a fresh uuid,
then in one transaction insert the task row and its `task.process` outbox
row via `insertOutboxEvent`, committing both together. -/
def ProcessTask (db : GrpcDB) (f : TxFaults) (resourceID action : String)
    (taskID eid : String) (now tOut : Nat) : Except HandlerErr GrpcDB :=
  let task : TaskRow := ⟨taskID, resourceID, action, "pending", "", now, now⟩
  if f.beginFails then .error .internal
  else if f.execFails then .error .internal
  else
    match insertOutboxEvent f.outboxFails db.outbox eid taskID "task.process"
        (marshalTask task) tOut with
    | .error _ => .error .internal
    | .ok ob2 =>
      if f.commitFails then .error .internal
      else .ok ⟨db.tasks ++ [task], ob2⟩

/-! ## Helper lemmas -/

/-- Filtering commutes with a map that does not change the predicate. -/
lemma filter_map_comm {α : Type} (p : α → Bool) (f : α → α)
    (hp : ∀ a, p (f a) = p a) :
    ∀ l : List α, (l.map f).filter p = (l.filter p).map f := by
  intro l
  induction l with
  | nil => rfl
  | cons a t ih =>
    cases h : p a with
    | true => simp [List.filter_cons, hp, h, ih]
    | false => simp [List.filter_cons, hp, h, ih]

/-- A successful id extraction exposes the message value's shape. -/
lemma extract_eq_some (v : MsgValue) (rid : String)
    (h : extractResourceID v = some rid) :
    ∃ fields, v = .obj fields ∧ fields.lookup "id" = some (.str rid) := by
  cases v with
  | malformed => simp [extractResourceID] at h
  | obj fields =>
    refine ⟨fields, rfl, ?_⟩
    simp only [extractResourceID] at h
    cases hl : fields.lookup "id" with
    | none => rw [hl] at h; cases h
    | some jv =>
      rw [hl] at h
      cases jv with
      | str s => rw [Option.some.inj h]
      | other => cases h

/-- The complete durable effect of a successful `processKafkaMessage` run:
the task row upserted and driven to `completed`, and one `task.completed`
outbox row appended. -/
def pkmEffect (db : GrpcDB) (msg : KMessage) (resourceID : String)
    (t1 t2 tOut : Nat) (eid : String) : GrpcDB :=
  let action := actionForTopic msg.topic
  let taskID := deriveTaskID resourceID
  let procResult := "Processing " ++ msg.topic ++ " event for resource " ++ resourceID
  let completedResult := "Completed " ++ action ++ " for resource " ++ resourceID
  ⟨updateTaskStatus
      (upsertTask db.tasks ⟨taskID, resourceID, action, "processing", procResult, t1, t1⟩)
      "completed" completedResult t2 taskID,
    db.outbox ++
      [⟨eid, taskID, "task.completed",
        taskCompletedPayload taskID resourceID action "completed", tOut, none⟩]⟩

/-- A fault-free delivery of a well-formed message commits `pkmEffect`. -/
lemma pkm_success (db : GrpcDB) (msg : KMessage) (rid : String)
    (t1 t2 tOut : Nat) (eid : String)
    (h : extractResourceID msg.value = some rid) :
    processKafkaMessage db msg t1 t2 tOut eid noPkmFaults =
      .ok (pkmEffect db msg rid t1 t2 tOut eid) := by
  obtain ⟨fields, hv, hl⟩ := extract_eq_some msg.value rid h
  simp [processKafkaMessage, hv, hl, noPkmFaults, insertOutboxEvent, pkmEffect]

/-- Whenever `processKafkaMessage` commits, the committed state is exactly
`pkmEffect` for the extracted resource id. -/
lemma pkm_ok_elim (db db' : GrpcDB) (msg : KMessage) (t1 t2 tOut : Nat)
    (eid : String) (f : PkmFaults)
    (h : processKafkaMessage db msg t1 t2 tOut eid f = .ok db') :
    ∃ rid, extractResourceID msg.value = some rid ∧
      db' = pkmEffect db msg rid t1 t2 tOut eid := by
  rcases msg with ⟨topic, key, value, off, part⟩
  cases value with
  | malformed => simp [processKafkaMessage] at h
  | obj fields =>
    simp only [processKafkaMessage] at h
    cases hl : fields.lookup "id" with
    | none => rw [hl] at h; cases h
    | some jv =>
      rw [hl] at h
      cases jv with
      | other => cases h
      | str s =>
        refine ⟨s, by simp [extractResourceID, hl], ?_⟩
        obtain ⟨b1, b2, b3, b4, b5⟩ := f
        cases b1 <;> cases b2 <;> cases b3 <;> cases b4 <;> cases b5 <;>
          simp_all [insertOutboxEvent, pkmEffect]

/-! ## C1 -/

/-- C1: every call path that mutates business state and emits an event
(resource create/update/delete, gRPC task creation, consumer task
completion) performs the outbox insert inside the same transaction as the
business mutation, so a committed result always contains both the business
change and the new outbox row, and an error commits neither (the `Except`
error branch carries no state: the deferred rollback discards the
transaction); `insertOutboxEvent` itself only appends a single insert to
the caller's transaction view and never owns a commit. -/
theorem outbox_write_is_transactional (rdb : RestDB) (gdb : GrpcDB)
    (f : TxFaults) (pf : PkmFaults) (msg : KMessage)
    (name desc status id newID taskID rid act eid : String)
    (now tOut t1 t2 : Nat) :
    (∀ (fail : Bool) (ob : List OutboxRow) (e a ty p : String) (t : Nat),
        insertOutboxEvent fail ob e a ty p t = .error () ∨
        insertOutboxEvent fail ob e a ty p t = .ok (ob ++ [⟨e, a, ty, p, t, none⟩])) ∧
    (∀ db', createResourceHandler rdb f (some (name, desc)) newID eid now tOut = .ok db' →
        db' = ⟨rdb.resources ++ [⟨newID, name, desc, "active", now, now⟩],
          rdb.outbox ++ [⟨eid, newID, "resource.created",
            marshalResource ⟨newID, name, desc, "active", now, now⟩, tOut, none⟩]⟩) ∧
    (∀ db', updateResourceHandler rdb f id (some (name, desc, status)) eid now tOut = .ok db' →
        db' = ⟨rdb.resources.map (fun r =>
            if r.id = id then
              { r with name := name, description := desc, status := status, updatedAt := now }
            else r),
          rdb.outbox ++ [⟨eid, id, "resource.updated",
            marshalResource ⟨id, name, desc, status, 0, now⟩, tOut, none⟩]⟩) ∧
    (∀ db', deleteResourceHandler rdb f id eid tOut = .ok db' →
        db' = ⟨rdb.resources.filter (fun r => r.id != id),
          rdb.outbox ++ [⟨eid, id, "resource.deleted", deletedPayload id, tOut, none⟩]⟩) ∧
    (∀ db', ProcessTask gdb f rid act taskID eid now tOut = .ok db' →
        db' = ⟨gdb.tasks ++ [⟨taskID, rid, act, "pending", "", now, now⟩],
          gdb.outbox ++ [⟨eid, taskID, "task.process",
            marshalTask ⟨taskID, rid, act, "pending", "", now, now⟩, tOut, none⟩]⟩) ∧
    (∀ db', processKafkaMessage gdb msg t1 t2 tOut eid pf = .ok db' →
        ∃ r, extractResourceID msg.value = some r ∧
          db' = pkmEffect gdb msg r t1 t2 tOut eid) := by
  refine ⟨?_, ?_, ?_, ?_, ?_, ?_⟩
  · intro fail ob e a ty p t
    cases fail with
    | true => exact Or.inl rfl
    | false => exact Or.inr rfl
  · intro db' h
    obtain ⟨b1, b2, b3, b4⟩ := f
    cases b1 <;> cases b2 <;> cases b3 <;> cases b4 <;>
      simp_all [createResourceHandler, insertOutboxEvent]
  · intro db' h
    obtain ⟨b1, b2, b3, b4⟩ := f
    cases b1 <;> cases b2 <;> cases b3 <;> cases b4 <;>
      simp_all [updateResourceHandler, insertOutboxEvent] <;>
      split at h <;> simp_all
  · intro db' h
    obtain ⟨b1, b2, b3, b4⟩ := f
    cases b1 <;> cases b2 <;> cases b3 <;> cases b4 <;>
      simp_all [deleteResourceHandler, insertOutboxEvent] <;>
      split at h <;> simp_all
  · intro db' h
    obtain ⟨b1, b2, b3, b4⟩ := f
    cases b1 <;> cases b2 <;> cases b3 <;> cases b4 <;>
      simp_all [ProcessTask, insertOutboxEvent]
  · intro db' h
    exact pkm_ok_elim gdb db' msg t1 t2 tOut eid pf h

/-- Witness for C1: the create path at a concrete input commits both the
resource row and the outbox row. -/
theorem outbox_write_is_transactional_witness :
    (⟨[⟨"r9", "n", "d", "active", 1, 1⟩],
      [⟨"e9", "r9", "resource.created",
        marshalResource ⟨"r9", "n", "d", "active", 1, 1⟩, 2, none⟩]⟩ : RestDB) =
    ⟨([] : List ResourceRow) ++ [⟨"r9", "n", "d", "active", 1, 1⟩],
      ([] : List OutboxRow) ++ [⟨"e9", "r9", "resource.created",
        marshalResource ⟨"r9", "n", "d", "active", 1, 1⟩, 2, none⟩]⟩ :=
  (outbox_write_is_transactional ⟨[], []⟩ ⟨[], []⟩ noTxFaults noPkmFaults
    ⟨"t", "k", .malformed, 0, 0⟩ "n" "d" "s" "i" "r9" "t9" "r" "a" "e9" 1 2 3 4).2.1
    ⟨[⟨"r9", "n", "d", "active", 1, 1⟩],
      [⟨"e9", "r9", "resource.created",
        marshalResource ⟨"r9", "n", "d", "active", 1, 1⟩, 2, none⟩]⟩ (by rfl)

/-- Rows matching the updated id carry the new status afterwards. -/
lemma updateTaskStatus_status (tasks : List TaskRow) (st res : String)
    (now : Nat) (tid : String) :
    ∀ r ∈ updateTaskStatus tasks st res now tid, r.id = tid → r.status = st := by
  intro r hr hid
  unfold updateTaskStatus at hr
  rcases List.mem_map.mp hr with ⟨a, ha, rfl⟩
  by_cases h : a.id = tid
  · simp [h]
  · rw [if_neg h] at hid
    exact absurd hid h

/-- A message whose id cannot be extracted makes the handler error out and
the dispatcher keep both the database and the offset untouched. -/
lemma consumerStep_extract_none (db : GrpcDB) (msg : KMessage)
    (t1 t2 tOut : Nat) (eid : String) (f : PkmFaults)
    (h : extractResourceID msg.value = none) :
    consumerStep db (.fetched msg) t1 t2 tOut eid f = (db, .noCommit) := by
  rcases msg with ⟨topic, key, value, off, part⟩
  cases value with
  | malformed => rfl
  | obj fields =>
    simp only [extractResourceID] at h
    cases hl : fields.lookup "id" with
    | none => simp [consumerStep, processKafkaMessage, hl]
    | some jv =>
      cases jv with
      | str s => rw [hl] at h; cases h
      | other => simp [consumerStep, processKafkaMessage, hl]

/-! ## C5 -/

/-- C5: in a dispatcher iteration over a fetched message, the offset commit
is issued exactly when `processKafkaMessage` returned success; on a handler
error the offset is never committed and the database is untouched, leaving
the message for redelivery. -/
theorem offset_commit_iff_handler_success (gdb : GrpcDB) (msg : KMessage)
    (t1 t2 tOut : Nat) (eid : String) (f : PkmFaults) :
    ((consumerStep gdb (.fetched msg) t1 t2 tOut eid f).2 = .committed ↔
      ∃ db2, processKafkaMessage gdb msg t1 t2 tOut eid f = .ok db2) ∧
    (∀ e, processKafkaMessage gdb msg t1 t2 tOut eid f = .error e →
      (consumerStep gdb (.fetched msg) t1 t2 tOut eid f).2 = .noCommit ∧
      (consumerStep gdb (.fetched msg) t1 t2 tOut eid f).1 = gdb) := by
  cases hp : processKafkaMessage gdb msg t1 t2 tOut eid f with
  | error e => simp [consumerStep, hp]
  | ok db2 => simp [consumerStep, hp]

/-- Witness for C5: a concrete failed handler run commits nothing. -/
theorem offset_commit_iff_handler_success_witness :
    (consumerStep ⟨[], []⟩ (.fetched ⟨"x", "k", .obj [], 0, 0⟩) 1 2 3 "u" noPkmFaults).2 =
      .noCommit ∧
    (consumerStep ⟨[], []⟩ (.fetched ⟨"x", "k", .obj [], 0, 0⟩) 1 2 3 "u" noPkmFaults).1 =
      (⟨[], []⟩ : GrpcDB) :=
  (offset_commit_iff_handler_success ⟨[], []⟩ ⟨"x", "k", .obj [], 0, 0⟩ 1 2 3 "u"
    noPkmFaults).2 .missingID (by rfl)

/-! ## C9 -/

/-- C9 counterexample: a structurally invalid payload is neither routed to
any dead-letter path nor skipped-and-committed under a configuration flag:
the handler errors, the offset is not committed, the database is unchanged,
and the only observable outcome is indefinite redelivery — hardwired, with
no configuration surface. -/
theorem malformed_payload_no_deadletter :
    processKafkaMessage ⟨[], []⟩ ⟨"resource.created", "k", .malformed, 0, 0⟩
      1 2 3 "u" noPkmFaults = .error .unmarshal ∧
    consumerStep ⟨[], []⟩ (.fetched ⟨"resource.created", "k", .malformed, 0, 0⟩)
      1 2 3 "u" noPkmFaults = (⟨[], []⟩, .noCommit) :=
  ⟨rfl, rfl⟩

/-- C9 amended: for every structurally invalid (unparseable) payload the
handler returns the unmarshal error and the dispatcher leaves the offset
uncommitted and the database unchanged, so the message is redelivered
indefinitely; there is no dead-letter routing and no skip-and-commit
configuration in this path. -/
theorem malformed_payload_retried_uncommitted (gdb : GrpcDB) (msg : KMessage)
    (t1 t2 tOut : Nat) (eid : String) (f : PkmFaults)
    (h : msg.value = .malformed) :
    processKafkaMessage gdb msg t1 t2 tOut eid f = .error .unmarshal ∧
    consumerStep gdb (.fetched msg) t1 t2 tOut eid f = (gdb, .noCommit) := by
  have hp : processKafkaMessage gdb msg t1 t2 tOut eid f = .error .unmarshal := by
    unfold processKafkaMessage
    rw [h]
  exact ⟨hp, by simp [consumerStep, hp]⟩

/-- Witness for the C9 amended theorem at a concrete malformed message. -/
theorem malformed_payload_retried_uncommitted_witness :
    processKafkaMessage ⟨[], []⟩ ⟨"t", "k", .malformed, 0, 0⟩ 1 2 3 "u"
      noPkmFaults = .error .unmarshal ∧
    consumerStep ⟨[], []⟩ (.fetched ⟨"t", "k", .malformed, 0, 0⟩) 1 2 3 "u"
      noPkmFaults = (⟨[], []⟩, .noCommit) :=
  malformed_payload_retried_uncommitted ⟨[], []⟩ ⟨"t", "k", .malformed, 0, 0⟩
    1 2 3 "u" noPkmFaults rfl

/-! ## C10 -/

/-- C10: the consumer-side handler is atomic over the store: a committed
iteration commits the complete effect (task row driven to `completed` plus
one `task.completed` outbox row, i.e. `pkmEffect`), every row under the
derived task id is `completed` in the committed state (the intermediate
`processing` status is never durable), a non-committed iteration leaves the
database unchanged, and a payload that does not unmarshal or lacks a
string id field yields exactly an uncommitted, unchanged iteration. -/
theorem consumer_processing_is_atomic (gdb : GrpcDB) (msg : KMessage)
    (t1 t2 tOut : Nat) (eid : String) (f : PkmFaults) :
    ((consumerStep gdb (.fetched msg) t1 t2 tOut eid f).2 ≠ .committed →
      (consumerStep gdb (.fetched msg) t1 t2 tOut eid f).1 = gdb) ∧
    ((consumerStep gdb (.fetched msg) t1 t2 tOut eid f).2 = .committed →
      ∃ rid, extractResourceID msg.value = some rid ∧
        (consumerStep gdb (.fetched msg) t1 t2 tOut eid f).1 =
          pkmEffect gdb msg rid t1 t2 tOut eid ∧
        ∀ r ∈ (consumerStep gdb (.fetched msg) t1 t2 tOut eid f).1.tasks,
          r.id = deriveTaskID rid → r.status = "completed") ∧
    (extractResourceID msg.value = none →
      consumerStep gdb (.fetched msg) t1 t2 tOut eid f = (gdb, .noCommit)) := by
  refine ⟨?_, ?_, consumerStep_extract_none gdb msg t1 t2 tOut eid f⟩
  · intro hne
    cases hp : processKafkaMessage gdb msg t1 t2 tOut eid f with
    | error e => simp [consumerStep, hp]
    | ok db2 => exact absurd (by simp [consumerStep, hp]) hne
  · intro hc
    cases hp : processKafkaMessage gdb msg t1 t2 tOut eid f with
    | error e => rw [show (consumerStep gdb (.fetched msg) t1 t2 tOut eid f).2 = .noCommit
        from by simp [consumerStep, hp]] at hc; cases hc
    | ok db2 =>
      obtain ⟨rid, hrid, heff⟩ := pkm_ok_elim gdb db2 msg t1 t2 tOut eid f hp
      refine ⟨rid, hrid, ?_, ?_⟩
      · simp [consumerStep, hp, heff]
      · intro r hr hid
        have : (consumerStep gdb (.fetched msg) t1 t2 tOut eid f).1 =
            pkmEffect gdb msg rid t1 t2 tOut eid := by simp [consumerStep, hp, heff]
        rw [this] at hr
        exact updateTaskStatus_status _ "completed" _ t2 (deriveTaskID rid) r hr hid

/-- Witness for C10: a concrete committed iteration equals the full effect
and carries a `completed` task row. -/
theorem consumer_processing_is_atomic_witness :
    ∃ rid, extractResourceID (MsgValue.obj [("id", .str "r1")]) = some rid ∧
      (consumerStep ⟨[], []⟩ (.fetched ⟨"resource.created", "r1", .obj [("id", .str "r1")], 0, 0⟩)
        1 2 3 "u1" noPkmFaults).1 =
        pkmEffect ⟨[], []⟩ ⟨"resource.created", "r1", .obj [("id", .str "r1")], 0, 0⟩ rid 1 2 3 "u1" ∧
      ∀ r ∈ (consumerStep ⟨[], []⟩
          (.fetched ⟨"resource.created", "r1", .obj [("id", .str "r1")], 0, 0⟩)
          1 2 3 "u1" noPkmFaults).1.tasks,
        r.id = deriveTaskID rid → r.status = "completed" :=
  (consumer_processing_is_atomic ⟨[], []⟩
    ⟨"resource.created", "r1", .obj [("id", .str "r1")], 0, 0⟩ 1 2 3 "u1"
    noPkmFaults).2.1 (by decide)

/-! ## C3 machinery -/

/-- The row fields the idempotence claim is about: everything except the
two timestamp columns. -/
def taskContent (r : TaskRow) : String × String × String × String :=
  (r.resourceId, r.action, r.status, r.result)

/-- The `resource_id` kept by the upsert: the pre-existing row's when the
id already exists, otherwise the inserted one. -/
def firstResourceId (l : List TaskRow) (dflt : String) : String :=
  match l with
  | [] => dflt
  | r :: _ => r.resourceId

/-- Delivering into a table without the task id appends one row and drives
it to the new status. -/
lemma upsert_update_filter_empty (tasks : List TaskRow) (t : TaskRow)
    (st res : String) (now : Nat)
    (hf : tasks.filter (fun x => x.id == t.id) = []) :
    (updateTaskStatus (upsertTask tasks t) st res now t.id).filter
        (fun x => x.id == t.id) =
      [{ t with status := st, result := res, updatedAt := now }] := by
  have hno : ∀ x ∈ tasks, ¬(x.id == t.id) = true := by
    intro x hx hpx
    have : x ∈ tasks.filter (fun x => x.id == t.id) := List.mem_filter.mpr ⟨hx, hpx⟩
    rw [hf] at this
    cases this
  have hany : tasks.any (fun x => x.id == t.id) = false := by
    rw [← Bool.not_eq_true, List.any_eq_true]
    rintro ⟨x, hx, hpx⟩
    exact hno x hx hpx
  unfold upsertTask
  rw [hany]
  simp only [Bool.false_eq_true, if_false, updateTaskStatus, List.map_append,
    List.filter_append]
  have h1 : (tasks.map (fun r =>
      if r.id = t.id then { r with status := st, result := res, updatedAt := now }
      else r)).filter (fun x => x.id == t.id) = [] := by
    rw [filter_map_comm _ _ (fun a => by by_cases ha : a.id = t.id <;> simp [ha]), hf]
    rfl
  rw [h1]
  simp

/-- Delivering into a table holding exactly one row with the task id keeps
a single row, overwriting action/status/result. -/
lemma upsert_update_filter_single (tasks : List TaskRow) (t : TaskRow)
    (st res : String) (now : Nat) (r : TaskRow)
    (hf : tasks.filter (fun x => x.id == t.id) = [r]) :
    (updateTaskStatus (upsertTask tasks t) st res now t.id).filter
        (fun x => x.id == t.id) =
      [{ r with action := t.action, status := st, result := res, updatedAt := now }] := by
  have hrmem : r ∈ tasks ∧ (r.id == t.id) = true := by
    have : r ∈ tasks.filter (fun x => x.id == t.id) := by
      rw [hf]; exact List.mem_singleton_self r
    exact List.mem_filter.mp this
  have hany : tasks.any (fun x => x.id == t.id) = true :=
    List.any_eq_true.mpr ⟨r, hrmem.1, hrmem.2⟩
  unfold upsertTask
  rw [hany]
  simp only [if_true, updateTaskStatus]
  rw [filter_map_comm _ _ (fun a => by by_cases ha : a.id = t.id <;> simp [ha]),
    filter_map_comm _ _ (fun a => by by_cases ha : a.id = t.id <;> simp [ha]), hf]
  have hid : r.id = t.id := by
    have := hrmem.2
    simpa using this
  simp [hid]

/-- One fault-free delivery of a well-formed message leaves exactly one
matching task row, `completed`, with the canonical result and the
`resource_id` the upsert preserves. -/
lemma pkmEffect_filter (db : GrpcDB) (msg : KMessage) (rid : String)
    (t1 t2 tOut : Nat) (eid : String)
    (hcount : (db.tasks.filter (fun x => x.id == deriveTaskID rid)).length ≤ 1) :
    ∃ r, ((pkmEffect db msg rid t1 t2 tOut eid).tasks.filter
        (fun x => x.id == deriveTaskID rid)) = [r] ∧
      r.resourceId = firstResourceId
        (db.tasks.filter (fun x => x.id == deriveTaskID rid)) rid ∧
      r.action = actionForTopic msg.topic ∧
      r.status = "completed" ∧
      r.result = "Completed " ++ actionForTopic msg.topic ++ " for resource " ++ rid := by
  cases hf : db.tasks.filter (fun x => x.id == deriveTaskID rid) with
  | nil =>
    refine ⟨_, upsert_update_filter_empty db.tasks
      ⟨deriveTaskID rid, rid, actionForTopic msg.topic, "processing",
        "Processing " ++ msg.topic ++ " event for resource " ++ rid, t1, t1⟩
      "completed" _ t2 hf, ?_, rfl, rfl, rfl⟩
    simp [firstResourceId]
  | cons r tail =>
    have htail : tail = [] := by
      rw [hf] at hcount
      cases tail with
      | nil => rfl
      | cons a l => simp at hcount
    subst htail
    refine ⟨_, upsert_update_filter_single db.tasks
      ⟨deriveTaskID rid, rid, actionForTopic msg.topic, "processing",
        "Processing " ++ msg.topic ++ " event for resource " ++ rid, t1, t1⟩
      "completed" _ t2 r hf, ?_, rfl, rfl, rfl⟩
    simp [firstResourceId]

/-- After `n + 1` fault-free deliveries of the same well-formed message the
matching rows are a single `completed` row whose content is a function of
the initial table and the message alone. -/
lemma deliverN_succ_filter (msg : KMessage) (rid : String)
    (ts : Nat → Nat × Nat × Nat) (eids : Nat → String)
    (hext : extractResourceID msg.value = some rid) :
    ∀ (n : Nat) (db : GrpcDB),
      (db.tasks.filter (fun x => x.id == deriveTaskID rid)).length ≤ 1 →
      ((deliverN msg ts eids (n + 1) db).tasks.filter
          (fun x => x.id == deriveTaskID rid)).map taskContent =
        [(firstResourceId (db.tasks.filter (fun x => x.id == deriveTaskID rid)) rid,
          actionForTopic msg.topic, "completed",
          "Completed " ++ actionForTopic msg.topic ++ " for resource " ++ rid)] ∧
      ((deliverN msg ts eids (n + 1) db).tasks.filter
          (fun x => x.id == deriveTaskID rid)).length = 1 := by
  intro n
  induction n with
  | zero =>
    intro db hcount
    have hs := pkm_success db msg rid (ts 0).1 (ts 0).2.1 (ts 0).2.2 (eids 0) hext
    obtain ⟨r, hfil, hrid, hact, hst, hres⟩ :=
      pkmEffect_filter db msg rid (ts 0).1 (ts 0).2.1 (ts 0).2.2 (eids 0) hcount
    simp only [deliverN, hs, hfil, List.map_cons, List.map_nil, taskContent,
      hrid, hact, hst, hres, List.length_cons, List.length_nil]
    exact ⟨trivial, trivial⟩
  | succ k ih =>
    intro db hcount
    have hs := pkm_success db msg rid (ts (k + 1)).1 (ts (k + 1)).2.1
      (ts (k + 1)).2.2 (eids (k + 1)) hext
    obtain ⟨r, hfil, hrid, hact, hst, hres⟩ :=
      pkmEffect_filter db msg rid (ts (k + 1)).1 (ts (k + 1)).2.1
        (ts (k + 1)).2.2 (eids (k + 1)) hcount
    have hcount2 : ((pkmEffect db msg rid (ts (k + 1)).1 (ts (k + 1)).2.1
        (ts (k + 1)).2.2 (eids (k + 1))).tasks.filter
        (fun x => x.id == deriveTaskID rid)).length ≤ 1 := by
      rw [hfil]; simp
    have := ih (pkmEffect db msg rid (ts (k + 1)).1 (ts (k + 1)).2.1
      (ts (k + 1)).2.2 (eids (k + 1))) hcount2
    rw [hfil] at this
    simp only [firstResourceId, hrid] at this
    simp only [deliverN, hs]
    exact this

/-! ## C3 -/

/-- C3: delivering the same inbound message `n ≥ 1` times fault-free to the
idempotent processor leaves exactly the same single `ProcessedTaskRecord`
row content (resource id, action, terminal status, result) as delivering
it once — one row, never a duplicate, never divergent outcomes. -/
theorem duplicate_delivery_idempotent (gdb : GrpcDB) (msg : KMessage)
    (rid : String) (ts : Nat → Nat × Nat × Nat) (eids : Nat → String) (n : Nat)
    (hext : extractResourceID msg.value = some rid)
    (hcount : (gdb.tasks.filter (fun x => x.id == deriveTaskID rid)).length ≤ 1)
    (hn : 1 ≤ n) :
    ((deliverN msg ts eids n gdb).tasks.filter
        (fun x => x.id == deriveTaskID rid)).map taskContent =
      ((deliverN msg ts eids 1 gdb).tasks.filter
        (fun x => x.id == deriveTaskID rid)).map taskContent ∧
    ((deliverN msg ts eids n gdb).tasks.filter
        (fun x => x.id == deriveTaskID rid)).length = 1 := by
  cases n with
  | zero => cases hn
  | succ m =>
    obtain ⟨hm, hlm⟩ := deliverN_succ_filter msg rid ts eids hext m gdb hcount
    obtain ⟨h1, _⟩ := deliverN_succ_filter msg rid ts eids hext 0 gdb hcount
    exact ⟨by rw [hm, h1], hlm⟩

/-- Witness for C3: three deliveries of a concrete message equal one. -/
theorem duplicate_delivery_idempotent_witness :
    ((deliverN ⟨"resource.created", "r1", .obj [("id", .str "r1")], 0, 0⟩
        (fun k => (k, k + 1, k + 2)) (fun k => toString k) 3 ⟨[], []⟩).tasks.filter
        (fun x => x.id == deriveTaskID "r1")).map taskContent =
      ((deliverN ⟨"resource.created", "r1", .obj [("id", .str "r1")], 0, 0⟩
        (fun k => (k, k + 1, k + 2)) (fun k => toString k) 1 ⟨[], []⟩).tasks.filter
        (fun x => x.id == deriveTaskID "r1")).map taskContent ∧
    ((deliverN ⟨"resource.created", "r1", .obj [("id", .str "r1")], 0, 0⟩
        (fun k => (k, k + 1, k + 2)) (fun k => toString k) 3 ⟨[], []⟩).tasks.filter
        (fun x => x.id == deriveTaskID "r1")).length = 1 :=
  duplicate_delivery_idempotent ⟨[], []⟩
    ⟨"resource.created", "r1", .obj [("id", .str "r1")], 0, 0⟩ "r1"
    (fun k => (k, k + 1, k + 2)) (fun k => toString k) 3 (by decide) (by decide)
    (by decide)

/-! ## C4 -/

/-- C4: the derived task identity is `"auto-" ++ resourceID`, a function of
the aggregate identity alone — the event type plays no part. Two messages
with the same resource id but different topics (`resource.created` then
`resource.updated`) map to the one row `auto-r1`: the second delivery
overwrites the first row's action instead of creating a distinct identity,
exactly the collision the claim says cannot happen. -/
theorem task_identity_ignores_event_type :
    deriveTaskID "r1" = "auto-r1" ∧
    (deliverN ⟨"resource.created", "r1", .obj [("id", .str "r1")], 0, 0⟩
        (fun _ => (1, 2, 3)) (fun _ => "u1") 1 ⟨[], []⟩).tasks.map
        (fun r => (r.id, r.action)) = [("auto-r1", "process_new_resource")] ∧
    (deliverN ⟨"resource.updated", "r1", .obj [("id", .str "r1")], 1, 0⟩
        (fun _ => (4, 5, 6)) (fun _ => "u2") 1
        (deliverN ⟨"resource.created", "r1", .obj [("id", .str "r1")], 0, 0⟩
          (fun _ => (1, 2, 3)) (fun _ => "u1") 1 ⟨[], []⟩)).tasks.map
        (fun r => (r.id, r.action)) = [("auto-r1", "reprocess_resource")] ∧
    (deliverN ⟨"resource.updated", "r1", .obj [("id", .str "r1")], 1, 0⟩
        (fun _ => (4, 5, 6)) (fun _ => "u2") 1
        (deliverN ⟨"resource.created", "r1", .obj [("id", .str "r1")], 0, 0⟩
          (fun _ => (1, 2, 3)) (fun _ => "u1") 1 ⟨[], []⟩)).tasks.length = 1 := by
  decide

/-! ## Relay helper lemmas -/

/-- Rows selected by the relay query are pending rows of the table. -/
lemma selectPending_mem (outbox : List OutboxRow) (r : OutboxRow)
    (hr : r ∈ selectPendingBatch outbox) : r ∈ outbox ∧ r.processedAt = none := by
  have h1 : r ∈ List.insertionSort byCreatedAt
      (outbox.filter (fun x => x.processedAt.isNone)) :=
    (List.take_sublist _ _).subset hr
  have h2 : r ∈ outbox.filter (fun x => x.processedAt.isNone) :=
    ((List.perm_insertionSort byCreatedAt _).mem_iff).mp h1
  have h3 := List.mem_filter.mp h2
  exact ⟨h3.1, Option.isNone_iff_eq_none.mp h3.2⟩

/-- With primary-key-unique ids, two table rows with one id coincide. -/
lemma eq_of_mem_nodup_ids {l : List OutboxRow}
    (h : (l.map (fun r => r.id)).Nodup) {a b : OutboxRow}
    (ha : a ∈ l) (hb : b ∈ l) (hid : a.id = b.id) : a = b :=
  List.inj_on_of_nodup_map h ha hb hid

/-- With primary-key-unique ids, filtering at a member's id is that row. -/
lemma filter_eq_singleton_of_nodup_ids {l : List OutboxRow}
    (h : (l.map (fun r => r.id)).Nodup) {a : OutboxRow} (ha : a ∈ l) :
    l.filter (fun r => r.id == a.id) = [a] := by
  induction l with
  | nil => cases ha
  | cons b t ih =>
    rw [List.map_cons, List.nodup_cons] at h
    rcases List.mem_cons.mp ha with rfl | hat
    · have hnone : t.filter (fun r => r.id == a.id) = [] := by
        rw [List.filter_eq_nil_iff]
        intro x hx hpx
        exact h.1 (List.mem_map.mpr ⟨x, hx, show x.id = a.id by simpa using hpx⟩)
      simp [List.filter_cons, hnone]
    · have hne : ¬(b.id == a.id) = true := by
        intro hpx
        exact h.1 (List.mem_map.mpr ⟨a, hat, show a.id = b.id from (show b.id = a.id by simpa using hpx).symm⟩)
      simp only [List.filter_cons, hne, if_false, Bool.false_eq_true]
      exact ih h.2 hat

/-- Marking does not change the set of row ids. -/
lemma mark_map_id (ob : List OutboxRow) (now : Nat) (i : String) :
    (markEventProcessed ob now i).map (fun r => r.id) = ob.map (fun r => r.id) := by
  induction ob with
  | nil => rfl
  | cons a t ih =>
    by_cases ha : a.id = i <;> simp [markEventProcessed, ha] <;>
      simpa [markEventProcessed] using ih

/-- Marking an id absent from a table is the identity. -/
lemma mark_id_absent (ob : List OutboxRow) (now : Nat) (i : String)
    (h : ∀ r ∈ ob, r.id ≠ i) : markEventProcessed ob now i = ob := by
  induction ob with
  | nil => rfl
  | cons a t ih =>
    have ha : a.id ≠ i := h a (List.mem_cons_self a t)
    simp only [markEventProcessed, List.map_cons, if_neg ha]
    rw [show (List.map (fun r =>
        if r.id = i then { r with processedAt := some now } else r) t) =
      markEventProcessed t now i from rfl]
    rw [ih (fun r hr => h r (List.mem_cons_of_mem a hr))]

/-- Marking one id leaves the rows of every other id untouched. -/
lemma mark_filter_ne (ob : List OutboxRow) (now : Nat) (i rid : String)
    (hne : i ≠ rid) :
    (markEventProcessed ob now i).filter (fun r => r.id == rid) =
      ob.filter (fun r => r.id == rid) := by
  unfold markEventProcessed
  rw [filter_map_comm _ _ (fun a => by by_cases ha : a.id = i <;> simp [ha])]
  rw [show (List.map (fun r =>
      if r.id = i then { r with processedAt := some now } else r)
      (ob.filter (fun r => r.id == rid))) =
    markEventProcessed (ob.filter (fun r => r.id == rid)) now i from rfl]
  apply mark_id_absent
  intro r hr
  have : (r.id == rid) = true := (List.mem_filter.mp hr).2
  rw [show r.id = rid from by simpa using this]
  exact fun hc => hne hc.symm

/-- The messages a relay cycle hands to the broker are exactly the batch
entries whose publish call succeeded, in batch order. -/
lemma processBatch_msgs (faults : RelayFaults) (now : Nat) :
    ∀ (batch outbox : List OutboxRow),
      (processBatch faults now outbox batch).2 =
        (batch.filter (fun e => !(faults.publishFails e.id))).map publishToKafka := by
  intro batch
  induction batch with
  | nil => intro outbox; rfl
  | cons e rest ih =>
    intro outbox
    by_cases hp : faults.publishFails e.id = true
    · simp [processBatch, hp, List.filter_cons, ih]
    · simp [processBatch, hp, List.filter_cons, ih]

/-- No relay cycle drops a row: the id column is invariant. -/
lemma processBatch_ids (faults : RelayFaults) (now : Nat) :
    ∀ (batch outbox : List OutboxRow),
      (processBatch faults now outbox batch).1.map (fun r => r.id) =
        outbox.map (fun r => r.id) := by
  intro batch
  induction batch with
  | nil => intro outbox; rfl
  | cons e rest ih =>
    intro outbox
    by_cases hp : faults.publishFails e.id = true
    · simp [processBatch, hp, ih]
    · by_cases hm : faults.markFails e.id = true
      · simp [processBatch, hp, hm, ih]
      · simp [processBatch, hp, hm, ih, mark_map_id]

/-- Rows whose id is marked by no batch entry pass through a cycle
unchanged. -/
lemma processBatch_filter_untouched (faults : RelayFaults) (now : Nat)
    (rid : String) :
    ∀ (batch outbox : List OutboxRow),
      (∀ e ∈ batch, faults.publishFails e.id = false → e.id ≠ rid) →
      (processBatch faults now outbox batch).1.filter (fun r => r.id == rid) =
        outbox.filter (fun r => r.id == rid) := by
  intro batch
  induction batch with
  | nil => intro outbox _; rfl
  | cons e rest ih =>
    intro outbox hb
    by_cases hp : faults.publishFails e.id = true
    · simp only [processBatch, hp, if_true]
      exact ih outbox (fun x hx => hb x (List.mem_cons_of_mem e hx))
    · have hne : e.id ≠ rid :=
        hb e (List.mem_cons_self e rest) (Bool.not_eq_true _ ▸ hp)
      by_cases hm : faults.markFails e.id = true
      · simp only [processBatch, hp, Bool.false_eq_true, if_false, hm, if_true]
        exact ih outbox (fun x hx => hb x (List.mem_cons_of_mem e hx))
      · simp only [processBatch, hp, hm, Bool.false_eq_true, if_false]
        rw [ih (markEventProcessed outbox now e.id)
          (fun x hx => hb x (List.mem_cons_of_mem e hx))]
        exact mark_filter_ne outbox now e.id rid hne

/-! ## C6 -/

/-- C6: a relay poll cycle selects only pending records (processed
timestamp NULL), in ascending `created_at` order, at most 100 of them, and
every selected record is a row of the table — no published record is ever
selected and the batch is bounded. -/
theorem relay_selects_bounded_pending_batch (outbox : List OutboxRow) :
    (∀ r ∈ selectPendingBatch outbox, r.processedAt = none) ∧
    List.Sorted byCreatedAt (selectPendingBatch outbox) ∧
    (selectPendingBatch outbox).length ≤ 100 ∧
    (∀ r ∈ selectPendingBatch outbox, r ∈ outbox) := by
  refine ⟨fun r hr => (selectPending_mem outbox r hr).2, ?_, ?_,
    fun r hr => (selectPending_mem outbox r hr).1⟩
  · exact List.Pairwise.sublist (List.take_sublist _ _)
      (List.sorted_insertionSort byCreatedAt _)
  · exact List.length_take_le 100
      (List.insertionSort byCreatedAt (outbox.filter (fun x => x.processedAt.isNone)))

/-- Witness for C6 at a one-row table. -/
theorem relay_selects_bounded_pending_batch_witness :
    (⟨"e1", "agg-1", "resource.created", "p", 0, none⟩ : OutboxRow).processedAt =
      none ∧
    (⟨"e1", "agg-1", "resource.created", "p", 0, none⟩ : OutboxRow) ∈
      [(⟨"e1", "agg-1", "resource.created", "p", 0, none⟩ : OutboxRow)] :=
  ⟨(relay_selects_bounded_pending_batch
      [⟨"e1", "agg-1", "resource.created", "p", 0, none⟩]).1 _ (by decide),
    (relay_selects_bounded_pending_batch
      [⟨"e1", "agg-1", "resource.created", "p", 0, none⟩]).2.2.2 _ (by decide)⟩

/-! ## C7 -/

/-- C7: when the broker publish of a claimed record fails, the relay never
marks it: its row is completely unchanged (processed timestamp still NULL,
so a later cycle can select it), no record of the table is dropped, and the
rest of the batch is still processed — the published messages are exactly
the batch entries whose own publish succeeded. -/
theorem publish_failure_keeps_record_pending (outbox : List OutboxRow)
    (faults : RelayFaults) (now : Nat) (e : OutboxRow)
    (hnodup : (outbox.map (fun r => r.id)).Nodup)
    (he : e ∈ selectPendingBatch outbox)
    (hfail : faults.publishFails e.id = true) :
    (processOutboxEvents faults now outbox).1.filter (fun r => r.id == e.id) = [e] ∧
    e.processedAt = none ∧
    (processOutboxEvents faults now outbox).1.map (fun r => r.id) =
      outbox.map (fun r => r.id) ∧
    (processOutboxEvents faults now outbox).2 =
      ((selectPendingBatch outbox).filter
        (fun x => !(faults.publishFails x.id))).map publishToKafka := by
  obtain ⟨hmem, hpend⟩ := selectPending_mem outbox e he
  refine ⟨?_, hpend, processBatch_ids faults now _ outbox,
    processBatch_msgs faults now _ outbox⟩
  rw [processOutboxEvents, processBatch_filter_untouched faults now e.id _ outbox ?_]
  · exact filter_eq_singleton_of_nodup_ids hnodup hmem
  · intro x hx hpub hid
    obtain ⟨hxmem, _⟩ := selectPending_mem outbox x hx
    have hxe : x = e := eq_of_mem_nodup_ids hnodup hxmem hmem hid
    rw [hxe, hfail] at hpub
    cases hpub

/-- Witness for C7: a two-row table where the first publish fails and the
second succeeds. -/
theorem publish_failure_keeps_record_pending_witness :
    (processOutboxEvents ⟨fun i => i == "e1", fun _ => false⟩ 7
        [⟨"e1", "a1", "resource.created", "p1", 0, none⟩,
          ⟨"e2", "a2", "resource.updated", "p2", 1, none⟩]).1.filter
        (fun r => r.id == "e1") =
      [⟨"e1", "a1", "resource.created", "p1", 0, none⟩] ∧
    (⟨"e1", "a1", "resource.created", "p1", 0, none⟩ : OutboxRow).processedAt = none ∧
    (processOutboxEvents ⟨fun i => i == "e1", fun _ => false⟩ 7
        [⟨"e1", "a1", "resource.created", "p1", 0, none⟩,
          ⟨"e2", "a2", "resource.updated", "p2", 1, none⟩]).1.map (fun r => r.id) =
      ([⟨"e1", "a1", "resource.created", "p1", 0, none⟩,
        ⟨"e2", "a2", "resource.updated", "p2", 1, none⟩] : List OutboxRow).map
        (fun r => r.id) ∧
    (processOutboxEvents ⟨fun i => i == "e1", fun _ => false⟩ 7
        [⟨"e1", "a1", "resource.created", "p1", 0, none⟩,
          ⟨"e2", "a2", "resource.updated", "p2", 1, none⟩]).2 =
      ((selectPendingBatch
          [⟨"e1", "a1", "resource.created", "p1", 0, none⟩,
            ⟨"e2", "a2", "resource.updated", "p2", 1, none⟩]).filter
        (fun x => !((⟨fun i => i == "e1", fun _ => false⟩ :
          RelayFaults).publishFails x.id))).map publishToKafka :=
  publish_failure_keeps_record_pending
    [⟨"e1", "a1", "resource.created", "p1", 0, none⟩,
      ⟨"e2", "a2", "resource.updated", "p2", 1, none⟩]
    ⟨fun i => i == "e1", fun _ => false⟩ 7
    ⟨"e1", "a1", "resource.created", "p1", 0, none⟩
    (by decide) (by decide) (by decide)

/-! ## C2 -/

/-- C2 counterexample: the mark update carries no
`WHERE processed_at IS NULL` guard — applied to a record whose processed
timestamp is already non-null it rewrites the row, so "a record whose
published timestamp is already non-null is never written again" is false
for `markEventProcessed` as implemented. -/
theorem mark_overwrites_published_row :
    markEventProcessed [⟨"e1", "agg-1", "resource.created", "p", 0, some 5⟩] 9 "e1" ≠
      [⟨"e1", "agg-1", "resource.created", "p", 0, some 5⟩] := by
  decide

/-- C2 amended: the relay marks a record published via the separate update
`UPDATE outbox_events SET processed_at = $1 WHERE id = $2`, which is
unconditional on the processed timestamp: it overwrites the timestamp of a
matching row whatever its prior value (first conjunct), it is idempotent
at a fixed timestamp (second conjunct), and a relay cycle invokes it only
for records it selected while pending, so rows already published survive a
whole cycle unchanged (third conjunct, assuming primary-key-unique ids). -/
theorem mark_update_unconditional (outbox : List OutboxRow) (now : Nat)
    (i : String) (r : OutboxRow) (faults : RelayFaults) :
    (r ∈ outbox → r.id = i →
      { r with processedAt := some now } ∈ markEventProcessed outbox now i) ∧
    markEventProcessed (markEventProcessed outbox now i) now i =
      markEventProcessed outbox now i ∧
    ((outbox.map (fun x => x.id)).Nodup → r ∈ outbox → r.processedAt ≠ none →
      r ∈ (processOutboxEvents faults now outbox).1) := by
  refine ⟨?_, ?_, ?_⟩
  · intro hr hid
    exact List.mem_map.mpr ⟨r, hr, by rw [if_pos hid]⟩
  · have hff : ∀ x : OutboxRow,
        (fun r : OutboxRow => if r.id = i then { r with processedAt := some now } else r)
          ((fun r : OutboxRow =>
            if r.id = i then { r with processedAt := some now } else r) x) =
        (fun r : OutboxRow =>
          if r.id = i then { r with processedAt := some now } else r) x := by
      intro x
      by_cases hx : x.id = i
      · simp [hx]
      · simp [hx]
    unfold markEventProcessed
    rw [List.map_map]
    exact List.map_congr_left (fun a _ => hff a)
  · intro hnodup hr hproc
    have hfil : (processOutboxEvents faults now outbox).1.filter
        (fun x => x.id == r.id) = outbox.filter (fun x => x.id == r.id) := by
      apply processBatch_filter_untouched
      intro x hx _ hid
      obtain ⟨hxmem, hxpend⟩ := selectPending_mem outbox x hx
      have : x = r := eq_of_mem_nodup_ids hnodup hxmem hr hid
      rw [this] at hxpend
      exact hproc hxpend
    have hrin : r ∈ outbox.filter (fun x => x.id == r.id) :=
      List.mem_filter.mpr ⟨hr, by simp⟩
    rw [← hfil] at hrin
    exact List.mem_of_mem_filter hrin

/-- Witness for the C2 amended theorem: a concrete already-published row is
overwritten by a bare mark but survives a full relay cycle untouched. -/
theorem mark_update_unconditional_witness :
    ((⟨"e2", "a", "t", "p", 0, some 3⟩ : OutboxRow) ∈
      markEventProcessed [⟨"e2", "a", "t", "p", 0, some 3⟩] 3 "e2" → False) ∨
    ({ (⟨"e2", "a", "t", "p", 0, some 3⟩ : OutboxRow) with processedAt := some 3 } ∈
      markEventProcessed [⟨"e2", "a", "t", "p", 0, some 3⟩] 3 "e2" ∧
    (⟨"e2", "a", "t", "p", 0, some 3⟩ : OutboxRow) ∈
      (processOutboxEvents noRelayFaults 9 [⟨"e2", "a", "t", "p", 0, some 3⟩]).1) :=
  Or.inr
    ⟨(mark_update_unconditional [⟨"e2", "a", "t", "p", 0, some 3⟩] 3 "e2"
        ⟨"e2", "a", "t", "p", 0, some 3⟩ noRelayFaults).1 (by decide) rfl,
      (mark_update_unconditional [⟨"e2", "a", "t", "p", 0, some 3⟩] 9 "e2"
        ⟨"e2", "a", "t", "p", 0, some 3⟩ noRelayFaults).2.2 (by decide) (by decide)
        (by decide)⟩

/-! ## C8 -/

/-- C8: every message a relay cycle publishes is built from a pending row of
the table with key = `aggregate_id`, topic = `event_type`, value = the
payload bytes, and exactly the two headers `event_id` and `event_type`;
concretely, one cycle over the single pending record
`(e1, agg-1, resource.created)` publishes one message keyed `agg-1` with
header `event_id = e1` and leaves the row's processed timestamp non-null. -/
theorem relay_message_shape (outbox : List OutboxRow) (faults : RelayFaults)
    (now : Nat) :
    (∀ m ∈ (processOutboxEvents faults now outbox).2,
      ∃ e, e ∈ outbox ∧ e.processedAt = none ∧
        m = ⟨e.eventType, e.aggregateId, e.payload,
          [("event_id", e.id), ("event_type", e.eventType)]⟩) ∧
    processOutboxEvents noRelayFaults 7
        [⟨"e1", "agg-1", "resource.created", "\x7b\"name\":\"X\"\x7d", 0, none⟩] =
      ([⟨"e1", "agg-1", "resource.created", "\x7b\"name\":\"X\"\x7d", 0, some 7⟩],
        [⟨"resource.created", "agg-1", "\x7b\"name\":\"X\"\x7d",
          [("event_id", "e1"), ("event_type", "resource.created")]⟩]) := by
  constructor
  · intro m hm
    rw [processOutboxEvents, processBatch_msgs] at hm
    obtain ⟨e, he, rfl⟩ := List.mem_map.mp hm
    have hb : e ∈ selectPendingBatch outbox := List.mem_of_mem_filter he
    obtain ⟨hmem, hpend⟩ := selectPending_mem outbox e hb
    exact ⟨e, hmem, hpend, rfl⟩
  · decide

/-- Witness for C8: the single concrete published message comes from the
pending row `e1`. -/
theorem relay_message_shape_witness :
    ∃ e, e ∈ [(⟨"e1", "agg-1", "resource.created", "\x7b\"name\":\"X\"\x7d", 0,
        none⟩ : OutboxRow)] ∧ e.processedAt = none ∧
      (⟨"resource.created", "agg-1", "\x7b\"name\":\"X\"\x7d",
        [("event_id", "e1"), ("event_type", "resource.created")]⟩ : KafkaMsg) =
        ⟨e.eventType, e.aggregateId, e.payload,
          [("event_id", e.id), ("event_type", e.eventType)]⟩ :=
  (relay_message_shape
    [⟨"e1", "agg-1", "resource.created", "\x7b\"name\":\"X\"\x7d", 0, none⟩]
    noRelayFaults 7).1 _ (by decide)

end Kafkify
